import Mathlib

/-!
# Verification of the chatter-backend generic repository and auth session manager

Shallow embedding of the repository's core:

* `AbstractRepository` (src/common/database/abstract.repository.ts): a generic
  CRUD layer over a document store.  The store is modelled as a list of
  documents together with a fresh-identifier counter (`new Types.ObjectId()`
  is modelled as drawing the counter value, which is what makes the generated
  identifier unique).
* `UsersService` (src/users/users.service.ts): hashes the password with bcrypt
  (modelled as an abstract hash function parameter, cost factor passed
  explicitly) and delegates to the repository.
* `AuthService` (src/auth/auth.service.ts): issues and clears the
  `Authentication` JWT cookie.  The JWT signing mechanism itself is not under
  src/, so it is modelled from the spec.

A document field value is either a plain string or a still-pending promise of
a bcrypt hash: `UsersService.update` passes `this.hashPassword(...)` without
awaiting it, so the value it places in the update document is a `Promise`,
not a string; the embedding keeps that distinction observable.
-/

/-- A field value as stored in a document.  `str` is an ordinary string value;
`pending s` models an un-awaited `Promise` of the bcrypt hash of `s`
(produced by `UsersService.update`, which omits `await` on `hashPassword`). -/
inductive Value where
  | str : String → Value
  | pending : String → Value
deriving DecidableEq, Repr

/-- A persisted document: the Mongo `_id` (modelled as a natural number, the
value drawn from the fresh-identifier counter) plus the remaining fields as an
association list from field name to value. -/
structure Doc where
  _id : Nat
  fields : List (String × Value)
deriving DecidableEq, Repr

/-- First value bound to key `k` in an association list of fields. -/
def lookupField : List (String × Value) → String → Option Value
  | [], _ => none
  | (k, v) :: fs, k2 => if k = k2 then some v else lookupField fs k2

/-- A Mongo query filter as the repository's callers use it: an optional
equality constraint on `_id` plus a conjunction of field-equality
constraints (e.g. `{ email: 'test@example.com' }`). -/
structure QueryFilter where
  idEq : Option Nat
  fieldEq : List (String × Value)
deriving DecidableEq, Repr

/-- Does document `d` match the filter: the `_id` constraint (when present)
holds and every field-equality constraint holds. -/
def matchesFilter (f : QueryFilter) (d : Doc) : Bool :=
  (match f.idEq with
    | some i => d._id == i
    | none => true)
  && f.fieldEq.all (fun kv => lookupField d.fields kv.1 == some kv.2)

/-- The filter `{ _id: i }`. -/
def idFilter (i : Nat) : QueryFilter :=
  { idEq := some i, fieldEq := [] }

/-- The document-store state seen by one repository: the stored documents (in
insertion order), the fresh-identifier counter backing `new Types.ObjectId()`,
and the list of identifiers handed out by `create` so far (a history used to
state uniqueness of generated identifiers; deletion removes a document from
`docs` but not from the history). -/
structure DB where
  docs : List Doc
  nextId : Nat
  created : List Nat
deriving DecidableEq, Repr

/-- Well-formedness of a store state: every stored document and every
previously generated identifier lies below the fresh-identifier counter, and
stored identifiers are pairwise distinct. -/
def WF (db : DB) : Prop :=
  (∀ d ∈ db.docs, d._id < db.nextId) ∧
  (∀ i ∈ db.created, i < db.nextId) ∧
  (db.docs.map Doc._id).Nodup

/-- The empty store. -/
def DB.empty : DB :=
  { docs := [], nextId := 0, created := [] }

/-- The repository's error taxonomy: `NotFoundException` thrown when a filter
matches no document. -/
inductive RepoError where
  | notFound : RepoError
deriving DecidableEq, Repr

namespace AbstractRepository

/-- `create(document)`: spreads the input fields, adds a freshly generated
`_id`, saves the document and returns it
(abstract.repository.ts, `create`). -/
def create (document : List (String × Value)) (db : DB) : Doc × DB :=
  let createdDocument : Doc := { _id := db.nextId, fields := document }
  (createdDocument,
    { docs := db.docs ++ [createdDocument],
      nextId := db.nextId + 1,
      created := db.created ++ [db.nextId] })

/-- `findOne(filterQuery)`: first document matching the filter, else
`NotFoundException` (abstract.repository.ts, `findOne`). -/
def findOne (filterQuery : QueryFilter) (db : DB) : Except RepoError Doc :=
  match db.docs.find? (matchesFilter filterQuery) with
  | some document => .ok document
  | none => .error .notFound

/-- `find(filterQuery)`: all documents matching the filter; an empty list when
none match, never an error (abstract.repository.ts, `find`). -/
def find (filterQuery : QueryFilter) (db : DB) : List Doc :=
  db.docs.filter (matchesFilter filterQuery)

/-- `$set` of a single field: replace the value in place when the key exists,
append the binding otherwise. -/
def setKey (fs : List (String × Value)) (k : String) (v : Value) :
    List (String × Value) :=
  if fs.any (fun p => p.1 = k) then
    fs.map (fun p => if p.1 = k then (k, v) else p)
  else
    fs ++ [(k, v)]

/-- Apply an update document as a partial-field replacement (`$set`
semantics, which is also how Mongoose treats a plain update document): each
named field is set, every other field — the `_id` included — is untouched. -/
def applySet (d : Doc) (update : List (String × Value)) : Doc :=
  { _id := d._id, fields := update.foldl (fun fs kv => setKey fs kv.1 kv.2) d.fields }

/-- Replace the first document matching `f` with its `$set`-updated image,
returning the post-update document (`new: true`) and the new document list;
`none` when nothing matches. -/
def updateFirst (f : QueryFilter) (update : List (String × Value)) :
    List Doc → Option (Doc × List Doc)
  | [] => none
  | d :: ds =>
    if matchesFilter f d then
      let d2 := applySet d update
      some (d2, d2 :: ds)
    else
      match updateFirst f update ds with
      | some (r, ds2) => some (r, d :: ds2)
      | none => none

/-- `findOneAndUpdate(filterQuery, update)` with `{ new: true }`: atomically
update the first matching document and return its post-update state, else
`NotFoundException` (abstract.repository.ts, `findOneAndUpdate`). -/
def findOneAndUpdate (filterQuery : QueryFilter) (update : List (String × Value))
    (db : DB) : Except RepoError (Doc × DB) :=
  match updateFirst filterQuery update db.docs with
  | some (document, docs2) =>
      .ok (document, { docs := docs2, nextId := db.nextId, created := db.created })
  | none => .error .notFound

/-- Remove the first document matching `f`, returning its pre-deletion state
and the remaining document list; `none` when nothing matches. -/
def deleteFirst (f : QueryFilter) : List Doc → Option (Doc × List Doc)
  | [] => none
  | d :: ds =>
    if matchesFilter f d then
      some (d, ds)
    else
      match deleteFirst f ds with
      | some (r, ds2) => some (r, d :: ds2)
      | none => none

/-- `findOneAndDelete(filterQuery)`: atomically remove the first matching
document and return it as it was before deletion, else `NotFoundException`
(abstract.repository.ts, `findOneAndDelete`). -/
def findOneAndDelete (filterQuery : QueryFilter) (db : DB) :
    Except RepoError (Doc × DB) :=
  match deleteFirst filterQuery db.docs with
  | some (document, docs2) =>
      .ok (document, { docs := docs2, nextId := db.nextId, created := db.created })
  | none => .error .notFound

end AbstractRepository

/-! ## Auth session manager (src/auth/auth.service.ts) -/

/-- A user as the auth layer sees it (src/users/entities/user.entity.ts):
the inherited `_id`, the `email` domain field and the stored bcrypt
`password` hash. -/
structure User where
  _id : Nat
  email : String
  password : String
deriving DecidableEq, Repr

/-- Hex rendering of an identifier, modelling `ObjectId.toHexString()`. -/
def toHexString (n : Nat) : String :=
  String.mk (Nat.toDigits 16 n)

/-- The signed token's claims (src/auth/token-payload.interface.ts, as built
by `AuthService.login`): exactly the fields `_id` (hex string) and `email`. -/
structure TokenPayload where
  _id : String
  email : String
deriving DecidableEq, Repr

/-- A signed JWT: the claims, the embedded expiry (seconds timestamp) fixed
at signing time, and a signature over both. -/
structure Token where
  payload : TokenPayload
  expiresAt : Nat
  sig : Nat
deriving DecidableEq, Repr

namespace JwtService

/-- Modelled from the spec: the signature a server holding `secret` puts on
(and expects over) the claims and embedded expiry.  The algorithm is
deployment configuration, not part of the core contract, so any function of
the secret and the signed content serves. -/
def mac (secret : Nat) (p : TokenPayload) (expiresAt : Nat) : Nat :=
  secret + 2 * p._id.length + 3 * p.email.length + 5 * expiresAt

/-- Modelled from the spec: `JwtService.sign` (the JwtModule configuration is
not under src/).  Signs the payload with an embedded expiry of
`JWT_EXPIRATION` seconds from issuance, computed by wall-clock addition at
issuance time. -/
def sign (secret : Nat) (now : Nat) (expirationSeconds : Nat)
    (payload : TokenPayload) : Token :=
  { payload := payload,
    expiresAt := now + expirationSeconds,
    sig := mac secret payload (now + expirationSeconds) }

/-- Verification outcomes: a tampered or foreign token is distinguished from
a naturally expired one. -/
inductive VerifyError where
  | invalidSignature : VerifyError
  | expired : VerifyError
deriving DecidableEq, Repr

/-- Modelled from the spec: `verify(token)` at wall-clock time `t` checks the
signature, then compares `t` against the expiry embedded in the token (not a
window recomputed at verification time), and returns the original claims. -/
def verify (secret : Nat) (token : Token) (t : Nat) :
    Except VerifyError TokenPayload :=
  if token.sig ≠ mac secret token.payload token.expiresAt then
    .error .invalidSignature
  else if token.expiresAt ≤ t then
    .error .expired
  else
    .ok token.payload

end JwtService

/-- A cookie value: a signed token (login) or a literal string (logout sets
the empty string). -/
inductive CookieValue where
  | jwt : Token → CookieValue
  | str : String → CookieValue
deriving DecidableEq, Repr

/-- The attributes `response.cookie(name, value, options)` sets: cookie name,
value, `httpOnly`, and the `expires` timestamp (seconds). -/
structure CookieDirectives where
  name : String
  value : CookieValue
  httpOnly : Bool
  expires : Nat
deriving DecidableEq, Repr

/-- Deployment configuration the auth service reads: `JWT_EXPIRATION`
(seconds) via ConfigService, and the server-held signing secret. -/
structure AuthConfig where
  jwtExpiration : Nat
  jwtSecret : Nat
deriving DecidableEq, Repr

/-- The `user` object inside login's response body: `_id` (hex string) and
`email` only. -/
structure LoginUser where
  _id : String
  email : String
deriving DecidableEq, Repr

/-- Login's JSON response body: `{ success: true, user: { _id, email } }`. -/
structure LoginResponse where
  success : Bool
  user : LoginUser
deriving DecidableEq, Repr

/-- What one `login` call produces: the cookie directive passed to
`response.cookie` and the returned body. -/
structure LoginResult where
  cookie : CookieDirectives
  body : LoginResponse
deriving DecidableEq, Repr

namespace AuthService

/-- `AuthService.login(user, response)` at wall-clock time `now` (seconds):
computes `expires = now + JWT_EXPIRATION`, signs `{ _id: hex, email }`, sets
the `Authentication` cookie with `httpOnly: true` and that expiry, and
returns `{ success: true, user: { _id, email } }`. -/
def login (cfg : AuthConfig) (now : Nat) (user : User) : LoginResult :=
  let expires := now + cfg.jwtExpiration
  let tokenPayload : TokenPayload :=
    { _id := toHexString user._id, email := user.email }
  let token := JwtService.sign cfg.jwtSecret now cfg.jwtExpiration tokenPayload
  { cookie :=
      { name := "Authentication",
        value := .jwt token,
        httpOnly := true,
        expires := expires },
    body :=
      { success := true,
        user := { _id := toHexString user._id, email := user.email } } }

/-- `AuthService.logout(response)` at wall-clock time `now`: overwrites the
`Authentication` cookie with the empty string and `expires = new Date()`,
i.e. the invocation time itself. -/
def logout (now : Nat) : CookieDirectives :=
  { name := "Authentication",
    value := .str "",
    httpOnly := true,
    expires := now }

/-- The `POST /auth/logout` path (src/auth/auth.controller.ts): the
controller only calls `authService.logout(response)`; the document store is
carried through untouched — neither the controller nor the service holds a
repository. -/
def logoutEndpoint (now : Nat) (db : DB) : CookieDirectives × DB :=
  (logout now, db)

end AuthService

/-! ## Users service (src/users/users.service.ts) -/

/-- Modelled from the spec: `CreateUserInput` (src lacks
dto/create-user.input.ts); per the spec and the User entity, the input
carries the domain fields `email` and the plaintext `password`. -/
structure CreateUserInput where
  email : String
  password : String
deriving DecidableEq, Repr

/-- Modelled from the spec: `UpdateUserInput` (src lacks
dto/update-user.input.ts); the update carries the optional domain fields
`email` and plaintext `password`. -/
structure UpdateUserInput where
  email : Option String
  password : Option String
deriving DecidableEq, Repr

namespace UsersService

/-- `UsersService.create(createUserInput)`: spreads the input and replaces
`password` with `await bcrypt.hash(password, 10)` (`hash` is the abstract
bcrypt capability, the cost factor is 10), then delegates to
`userRepository.create`. -/
def create (hash : String → Nat → String) (input : CreateUserInput) (db : DB) :
    Doc × DB :=
  AbstractRepository.create
    [("email", Value.str input.email),
     ("password", Value.str (hash input.password 10))]
    db

/-- The `$set` document `UsersService.update` builds: the spread of the
update input, with `password` — when present — bound to the result of
`this.hashPassword(...)` without `await`, i.e. a still-pending promise. -/
def userUpdateDoc (input : UpdateUserInput) : List (String × Value) :=
  (match input.email with
    | some e => [("email", Value.str e)]
    | none => [])
  ++
  (match input.password with
    | some p => [("password", Value.pending p)]
    | none => [])

/-- `UsersService.update(_id, updateUserInput)`: delegates to
`userRepository.findOneAndUpdate({ _id }, { $set: ... })`. -/
def update (_id : Nat) (input : UpdateUserInput) (db : DB) :
    Except RepoError (Doc × DB) :=
  AbstractRepository.findOneAndUpdate (idFilter _id) (userUpdateDoc input) db

/-- `UsersService.findOne(_id)`: delegates to
`userRepository.findOne({ _id })`. -/
def findOne (_id : Nat) (db : DB) : Except RepoError Doc :=
  AbstractRepository.findOne (idFilter _id) db

/-- `UsersService.remove(_id)`: delegates to
`userRepository.findOneAndDelete({ _id })`. -/
def remove (_id : Nat) (db : DB) : Except RepoError (Doc × DB) :=
  AbstractRepository.findOneAndDelete (idFilter _id) db

end UsersService

/-! ## Helper lemmas -/

namespace AbstractRepository

theorem matchesFilter_idFilter (i : Nat) (d : Doc) :
    matchesFilter (idFilter i) d = (d._id == i) := by
  simp [matchesFilter, idFilter]

theorem applySet_id (d : Doc) (u : List (String × Value)) :
    (applySet d u)._id = d._id := rfl

theorem updateFirst_spec (f : QueryFilter) (u : List (String × Value))
    (docs : List Doc) (d2 : Doc) (docs2 : List Doc)
    (h : updateFirst f u docs = some (d2, docs2)) :
    ∃ d ∈ docs, matchesFilter f d = true ∧ d2 = applySet d u ∧ d2 ∈ docs2 := by
  induction docs generalizing docs2 with
  | nil => simp [updateFirst] at h
  | cons d ds ih =>
    simp only [updateFirst] at h
    split at h
    next hm =>
      simp only [Option.some.injEq, Prod.mk.injEq] at h
      obtain ⟨h1, h2⟩ := h
      subst h1
      subst h2
      exact ⟨d, List.mem_cons_self d ds, hm, rfl, List.mem_cons_self _ ds⟩
    next hm =>
      split at h
      next r ds2 hu =>
        simp only [Option.some.injEq, Prod.mk.injEq] at h
        obtain ⟨h1, h2⟩ := h
        subst h1
        subst h2
        obtain ⟨e, he, hme, hde, hmem⟩ := ih ds2 hu
        exact ⟨e, List.mem_cons_of_mem d he, hme, hde,
          List.mem_cons_of_mem d hmem⟩
      next hu => exact absurd h (by simp)

theorem updateFirst_find_self (f : QueryFilter) (u : List (String × Value))
    (docs : List Doc) (d2 : Doc) (docs2 : List Doc)
    (hnd : (docs.map Doc._id).Nodup)
    (h : updateFirst f u docs = some (d2, docs2)) :
    docs2.find? (matchesFilter (idFilter d2._id)) = some d2 := by
  induction docs generalizing docs2 with
  | nil => simp [updateFirst] at h
  | cons d ds ih =>
    rw [List.map_cons, List.nodup_cons] at hnd
    simp only [updateFirst] at h
    split at h
    next hm =>
      simp only [Option.some.injEq, Prod.mk.injEq] at h
      obtain ⟨h1, h2⟩ := h
      subst h1
      subst h2
      exact List.find?_cons_of_pos _ (by rw [matchesFilter_idFilter]; simp)
    next hm =>
      split at h
      next r ds2 hu =>
        simp only [Option.some.injEq, Prod.mk.injEq] at h
        obtain ⟨h1, h2⟩ := h
        subst h1
        subst h2
        obtain ⟨e, he, _, hde, _⟩ := updateFirst_spec f u ds r ds2 hu
        have hne : matchesFilter (idFilter r._id) d ≠ true := by
          rw [matchesFilter_idFilter, hde, applySet_id]
          intro hc
          have hcc : d._id = e._id := eq_of_beq hc
          exact hnd.1 (hcc ▸ List.mem_map_of_mem Doc._id he)
        rw [List.find?_cons_of_neg _ hne]
        exact ih ds2 hnd.2 hu
      next hu => exact absurd h (by simp)

theorem updateFirst_eq_none (f : QueryFilter) (u : List (String × Value))
    (docs : List Doc) (h : ∀ d ∈ docs, matchesFilter f d = false) :
    updateFirst f u docs = none := by
  induction docs with
  | nil => rfl
  | cons d ds ih =>
    simp only [updateFirst]
    rw [if_neg (by simp [h d (List.mem_cons_self d ds)]),
      ih (fun x hx => h x (List.mem_cons_of_mem d hx))]

theorem deleteFirst_spec (f : QueryFilter) (docs : List Doc) (d2 : Doc)
    (docs2 : List Doc) (h : deleteFirst f docs = some (d2, docs2)) :
    d2 ∈ docs ∧ matchesFilter f d2 = true := by
  induction docs generalizing docs2 with
  | nil => simp [deleteFirst] at h
  | cons d ds ih =>
    simp only [deleteFirst] at h
    split at h
    next hm =>
      simp only [Option.some.injEq, Prod.mk.injEq] at h
      obtain ⟨h1, _⟩ := h
      subst h1
      exact ⟨List.mem_cons_self d ds, hm⟩
    next hm =>
      split at h
      next r ds2 hu =>
        simp only [Option.some.injEq, Prod.mk.injEq] at h
        obtain ⟨h1, h2⟩ := h
        subst h1
        subst h2
        obtain ⟨hmem, hmf⟩ := ih ds2 hu
        exact ⟨List.mem_cons_of_mem d hmem, hmf⟩
      next hu => exact absurd h (by simp)

theorem deleteFirst_id_gone (f : QueryFilter) (docs : List Doc) (d2 : Doc)
    (docs2 : List Doc) (hnd : (docs.map Doc._id).Nodup)
    (h : deleteFirst f docs = some (d2, docs2)) :
    ∀ x ∈ docs2, matchesFilter (idFilter d2._id) x = false := by
  induction docs generalizing docs2 with
  | nil => simp [deleteFirst] at h
  | cons d ds ih =>
    rw [List.map_cons, List.nodup_cons] at hnd
    simp only [deleteFirst] at h
    split at h
    next hm =>
      simp only [Option.some.injEq, Prod.mk.injEq] at h
      obtain ⟨h1, h2⟩ := h
      subst h1
      subst h2
      intro x hx
      rw [matchesFilter_idFilter]
      simp only [beq_eq_false_iff_ne, ne_eq]
      intro hc
      exact hnd.1 (by
        rw [← hc]
        exact List.mem_map_of_mem Doc._id hx)
    next hm =>
      split at h
      next r ds2 hu =>
        simp only [Option.some.injEq, Prod.mk.injEq] at h
        obtain ⟨h1, h2⟩ := h
        subst h1
        subst h2
        intro x hx
        rcases List.mem_cons.mp hx with hx | hx
        · subst hx
          rw [matchesFilter_idFilter]
          simp only [beq_eq_false_iff_ne, ne_eq]
          intro hc
          obtain ⟨hmem, _⟩ := deleteFirst_spec f ds r ds2 hu
          exact hnd.1 (by
            rw [hc]
            exact List.mem_map_of_mem Doc._id hmem)
        · exact ih ds2 hnd.2 hu x hx
      next hu => exact absurd h (by simp)

theorem deleteFirst_eq_none (f : QueryFilter) (docs : List Doc)
    (h : ∀ d ∈ docs, matchesFilter f d = false) :
    deleteFirst f docs = none := by
  induction docs with
  | nil => rfl
  | cons d ds ih =>
    simp only [deleteFirst]
    rw [if_neg (by simp [h d (List.mem_cons_self d ds)]),
      ih (fun x hx => h x (List.mem_cons_of_mem d hx))]

end AbstractRepository

namespace AbstractRepository

theorem lookupField_map_set (k0 : String) (v : Value) (k : String)
    (hne : k0 ≠ k) (fs : List (String × Value)) :
    lookupField (fs.map (fun p => if p.1 = k0 then (k0, v) else p)) k =
      lookupField fs k := by
  induction fs with
  | nil => rfl
  | cons p fs ih =>
    obtain ⟨k1, v1⟩ := p
    by_cases h1 : k1 = k0
    · rw [List.map_cons,
        show (if (k1, v1).1 = k0 then (k0, v) else (k1, v1)) = (k0, v)
          from by simp [h1]]
      simp only [lookupField]
      rw [if_neg hne, if_neg (fun hc => hne (h1 ▸ hc))]
      exact ih
    · rw [List.map_cons,
        show (if (k1, v1).1 = k0 then (k0, v) else (k1, v1)) = (k1, v1)
          from by simp [h1]]
      simp only [lookupField]
      by_cases h2 : k1 = k
      · rw [if_pos h2, if_pos h2]
      · rw [if_neg h2, if_neg h2]
        exact ih

theorem lookupField_append_single (k0 : String) (v : Value) (k : String)
    (hne : k0 ≠ k) (fs : List (String × Value)) :
    lookupField (fs ++ [(k0, v)]) k = lookupField fs k := by
  induction fs with
  | nil => simp [lookupField, if_neg hne]
  | cons p fs ih =>
    obtain ⟨k1, v1⟩ := p
    simp only [List.cons_append, lookupField]
    by_cases h2 : k1 = k
    · rw [if_pos h2, if_pos h2]
    · rw [if_neg h2, if_neg h2]
      exact ih

theorem lookupField_setKey_ne (fs : List (String × Value)) (k0 : String)
    (v : Value) (k : String) (hne : k0 ≠ k) :
    lookupField (setKey fs k0 v) k = lookupField fs k := by
  unfold setKey
  split
  · exact lookupField_map_set k0 v k hne fs
  · exact lookupField_append_single k0 v k hne fs

theorem lookupField_foldl_setKey (k : String) (u : List (String × Value))
    (hk : ∀ kv ∈ u, kv.1 ≠ k) (fs : List (String × Value)) :
    lookupField (u.foldl (fun fs kv => setKey fs kv.1 kv.2) fs) k =
      lookupField fs k := by
  induction u generalizing fs with
  | nil => rfl
  | cons kv u ih =>
    rw [List.foldl_cons,
      ih (fun x hx => hk x (List.mem_cons_of_mem kv hx)),
      lookupField_setKey_ne fs kv.1 kv.2 k (hk kv (List.mem_cons_self kv u))]

theorem lookupField_applySet_frame (d : Doc) (u : List (String × Value))
    (k : String) (hk : k ∉ u.map Prod.fst) :
    lookupField (applySet d u).fields k = lookupField d.fields k := by
  unfold applySet
  exact lookupField_foldl_setKey k u
    (fun kv hkv hc => hk (hc ▸ List.mem_map_of_mem Prod.fst hkv)) d.fields

theorem userUpdateDoc_keys (input : UpdateUserInput) (k : String)
    (hk : k ∈ (UsersService.userUpdateDoc input).map Prod.fst) :
    k = "email" ∨ k = "password" := by
  unfold UsersService.userUpdateDoc at hk
  rcases he : input.email with _ | e
  · rcases hp : input.password with _ | p
    · rw [he, hp] at hk
      simp at hk
    · rw [he, hp] at hk
      simp at hk
      exact Or.inr hk
  · rcases hp : input.password with _ | p
    · rw [he, hp] at hk
      simp at hk
      exact Or.inl hk
    · rw [he, hp] at hk
      simp at hk
      exact hk

end AbstractRepository

/-! ## Claim theorems -/

/-- C1: for every input record `fields` (an Entity without an id),
`Repository.create(fields)` generates a fresh identifier, persists the
document `{id, ...fields}`, and returns the full persisted Entity whose id is
distinct from the id of every previously created Entity and whose other
fields equal `fields` exactly. -/
theorem C1_create_fresh_id (fields : List (String × Value)) (db : DB)
    (hwf : WF db) :
    ((AbstractRepository.create fields db).1).fields = fields ∧
    (AbstractRepository.create fields db).1 ∈
      (AbstractRepository.create fields db).2.docs ∧
    (∀ i ∈ db.created, (AbstractRepository.create fields db).1._id ≠ i) ∧
    (AbstractRepository.create fields db).2.created =
      db.created ++ [(AbstractRepository.create fields db).1._id] := by
  refine ⟨rfl, by simp [AbstractRepository.create], ?_, rfl⟩
  intro i hi
  have h1 : (AbstractRepository.create fields db).1._id = db.nextId := rfl
  have h2 : i < db.nextId := hwf.2.1 i hi
  omega

/-- Witness for C1 at a concrete non-empty store. -/
theorem C1_witness :
    ((AbstractRepository.create [("email", Value.str "b@c.d")]
        { docs := [{ _id := 0, fields := [("email", Value.str "a@b.c")] }],
          nextId := 1, created := [0] }).1).fields =
      [("email", Value.str "b@c.d")] ∧
    (AbstractRepository.create [("email", Value.str "b@c.d")]
        { docs := [{ _id := 0, fields := [("email", Value.str "a@b.c")] }],
          nextId := 1, created := [0] }).1 ∈
      (AbstractRepository.create [("email", Value.str "b@c.d")]
        { docs := [{ _id := 0, fields := [("email", Value.str "a@b.c")] }],
          nextId := 1, created := [0] }).2.docs ∧
    (∀ i ∈ [0],
      (AbstractRepository.create [("email", Value.str "b@c.d")]
        { docs := [{ _id := 0, fields := [("email", Value.str "a@b.c")] }],
          nextId := 1, created := [0] }).1._id ≠ i) ∧
    (AbstractRepository.create [("email", Value.str "b@c.d")]
        { docs := [{ _id := 0, fields := [("email", Value.str "a@b.c")] }],
          nextId := 1, created := [0] }).2.created =
      [0] ++ [(AbstractRepository.create [("email", Value.str "b@c.d")]
        { docs := [{ _id := 0, fields := [("email", Value.str "a@b.c")] }],
          nextId := 1, created := [0] }).1._id] :=
  C1_create_fresh_id [("email", Value.str "b@c.d")]
    { docs := [{ _id := 0, fields := [("email", Value.str "a@b.c")] }],
      nextId := 1, created := [0] }
    (by unfold WF; refine ⟨?_, ?_, ?_⟩ <;> decide)

/-- C4: for every filter matching no stored document, `Repository.findOne`
fails with `NotFound` (never a default or empty Entity), while
`Repository.find` on the same store returns the empty sequence and never
fails. -/
theorem C4_findOne_notFound_find_empty (f : QueryFilter) (db : DB)
    (h : ∀ d ∈ db.docs, matchesFilter f d = false) :
    AbstractRepository.findOne f db = .error .notFound ∧
    AbstractRepository.find f db = [] := by
  constructor
  · unfold AbstractRepository.findOne
    rw [List.find?_eq_none.mpr (fun x hx => by simp [h x hx])]
  · unfold AbstractRepository.find
    exact List.filter_eq_nil_iff.mpr (fun x hx => by simp [h x hx])

/-- Witness for C4 at a concrete non-empty store and non-matching filter. -/
theorem C4_witness :
    AbstractRepository.findOne (idFilter 5)
      { docs := [{ _id := 0, fields := [("email", Value.str "a@b.c")] }],
        nextId := 1, created := [0] } = .error .notFound ∧
    AbstractRepository.find (idFilter 5)
      { docs := [{ _id := 0, fields := [("email", Value.str "a@b.c")] }],
        nextId := 1, created := [0] } = [] :=
  C4_findOne_notFound_find_empty (idFilter 5)
    { docs := [{ _id := 0, fields := [("email", Value.str "a@b.c")] }],
      nextId := 1, created := [0] }
    (by decide)

/-- C6: for every user and invocation time, `login` signs a token whose
payload is exactly `{ _id: hex identifier, email }` and sets it in a cookie
named `Authentication` with `httpOnly = true` and `expires` equal to the
invocation time plus the configured `JWT_EXPIRATION` seconds. -/
theorem C6_login_cookie_contract (cfg : AuthConfig) (now : Nat) (user : User) :
    (AuthService.login cfg now user).cookie.name = "Authentication" ∧
    (AuthService.login cfg now user).cookie.httpOnly = true ∧
    (AuthService.login cfg now user).cookie.expires = now + cfg.jwtExpiration ∧
    (AuthService.login cfg now user).cookie.value =
      CookieValue.jwt
        (JwtService.sign cfg.jwtSecret now cfg.jwtExpiration
          { _id := toHexString user._id, email := user.email }) :=
  ⟨rfl, rfl, rfl, rfl⟩

/-- C7: a token issued at time `T` with expiration `n` seconds carries an
embedded expiry of exactly `T + n`; verification strictly after `T + n`
fails with `Expired`, and strictly before `T + n` succeeds and returns the
original identity fields (the verifier compares against the embedded
expiry). -/
theorem C7_embedded_expiry (secret now n t : Nat) (payload : TokenPayload) :
    (JwtService.sign secret now n payload).expiresAt = now + n ∧
    (now + n < t →
      JwtService.verify secret (JwtService.sign secret now n payload) t =
        .error .expired) ∧
    (t < now + n →
      JwtService.verify secret (JwtService.sign secret now n payload) t =
        .ok payload) := by
  refine ⟨rfl, fun h => ?_, fun h => ?_⟩
  · unfold JwtService.verify JwtService.sign
    rw [if_neg (by simp), if_pos (by simp; omega)]
  · unfold JwtService.verify JwtService.sign
    rw [if_neg (by simp), if_neg (by simp; omega)]

/-- Witness for C7: a token issued at `T = 0` with `n = 3600` is rejected as
expired at `3601` and accepted at `3599`. -/
theorem C7_witness :
    JwtService.verify 1 (JwtService.sign 1 0 3600 { _id := "a", email := "b" })
        3601 = .error .expired ∧
    JwtService.verify 1 (JwtService.sign 1 0 3600 { _id := "a", email := "b" })
        3599 = .ok { _id := "a", email := "b" } :=
  ⟨(C7_embedded_expiry 1 0 3600 3601 { _id := "a", email := "b" }).2.1
      (by decide),
   (C7_embedded_expiry 1 0 3600 3599 { _id := "a", email := "b" }).2.2
      (by decide)⟩

/-- C8: for every invocation time, `logout` sets the `Authentication` cookie
to the empty string with an expiry equal to (hence not later than) the
invocation time, and the logout path performs no mutation of the document
store. -/
theorem C8_logout_clears_cookie (now : Nat) (db : DB) :
    AuthService.logout now =
      { name := "Authentication", value := CookieValue.str "",
        httpOnly := true, expires := now } ∧
    (AuthService.logout now).expires ≤ now ∧
    (AuthService.logoutEndpoint now db).2 = db ∧
    (AuthService.logoutEndpoint now db).1 = AuthService.logout now :=
  ⟨rfl, Nat.le_refl now, rfl, rfl⟩

/-- C10: login's response body is exactly
`{ success: true, user: { _id, email } }` (the body type carries no password
field), and any two users agreeing on `_id` and `email` but differing in
their stored password hash produce identical login results. -/
theorem C10_login_independent_of_password (cfg : AuthConfig) (now : Nat)
    (u1 u2 : User) (hid : u1._id = u2._id) (hemail : u1.email = u2.email) :
    (AuthService.login cfg now u1).body =
      { success := true,
        user := { _id := toHexString u1._id, email := u1.email } } ∧
    AuthService.login cfg now u1 = AuthService.login cfg now u2 := by
  refine ⟨rfl, ?_⟩
  unfold AuthService.login
  rw [hid, hemail]

/-- Witness for C10: two users with the same identity but different stored
password hashes obtain identical login results. -/
theorem C10_witness :
    (AuthService.login { jwtExpiration := 3600, jwtSecret := 7 } 100
        { _id := 2, email := "a@b.c", password := "hash1" }).body =
      { success := true,
        user := { _id := toHexString 2, email := "a@b.c" } } ∧
    AuthService.login { jwtExpiration := 3600, jwtSecret := 7 } 100
        { _id := 2, email := "a@b.c", password := "hash1" } =
      AuthService.login { jwtExpiration := 3600, jwtSecret := 7 } 100
        { _id := 2, email := "a@b.c", password := "hash2" } :=
  C10_login_independent_of_password { jwtExpiration := 3600, jwtSecret := 7 }
    100 { _id := 2, email := "a@b.c", password := "hash1" }
    { _id := 2, email := "a@b.c", password := "hash2" } rfl rfl

/-- Unfold `findOne` on a literal store: it is the first match in the
document list. -/
theorem findOne_mk (f : QueryFilter) (docs : List Doc) (n : Nat)
    (c : List Nat) :
    AbstractRepository.findOne f { docs := docs, nextId := n, created := c } =
      match docs.find? (matchesFilter f) with
      | some d => .ok d
      | none => .error .notFound := rfl

/-- Shared frame lemma for the update path: a successful `findOneAndUpdate`
replaces exactly the fields named in the update document of some matched
stored document; its `_id` and every field not named in the update are
unchanged, and the post-update document is stored. -/
theorem findOneAndUpdate_frame (f : QueryFilter) (u : List (String × Value))
    (db : DB) (d2 : Doc) (db2 : DB)
    (h : AbstractRepository.findOneAndUpdate f u db = .ok (d2, db2)) :
    ∃ d ∈ db.docs, matchesFilter f d = true ∧ d2 ∈ db2.docs ∧
      d2._id = d._id ∧
      ∀ k, k ∉ u.map Prod.fst →
        lookupField d2.fields k = lookupField d.fields k := by
  unfold AbstractRepository.findOneAndUpdate at h
  cases hu : AbstractRepository.updateFirst f u db.docs with
  | none => rw [hu] at h; exact absurd h (by simp)
  | some p =>
    obtain ⟨dd, docs2⟩ := p
    rw [hu] at h
    simp only [Except.ok.injEq, Prod.mk.injEq] at h
    obtain ⟨h1, h2⟩ := h
    subst h1
    subst h2
    obtain ⟨d, hd, hmd, hde, hmem⟩ :=
      AbstractRepository.updateFirst_spec f u db.docs dd docs2 hu
    subst hde
    exact ⟨d, hd, hmd, hmem, AbstractRepository.applySet_id d u,
      fun k hk => AbstractRepository.lookupField_applySet_frame d u k hk⟩

/-- C2: `findOneAndUpdate` returns the post-update state of a matched stored
document (not its pre-update state), an immediately following `findOne` on
that document's id returns exactly the value `findOneAndUpdate` returned,
and when no document matches the filter it fails with `NotFound`. -/
theorem C2_findOneAndUpdate_post_state (f : QueryFilter)
    (u : List (String × Value)) (db : DB) (hwf : WF db) :
    (∀ d2 db2,
      AbstractRepository.findOneAndUpdate f u db = .ok (d2, db2) →
        (∃ d ∈ db.docs, matchesFilter f d = true ∧
          d2 = AbstractRepository.applySet d u) ∧
        AbstractRepository.findOne (idFilter d2._id) db2 = .ok d2) ∧
    ((∀ d ∈ db.docs, matchesFilter f d = false) →
      AbstractRepository.findOneAndUpdate f u db = .error .notFound) := by
  constructor
  · intro d2 db2 h
    unfold AbstractRepository.findOneAndUpdate at h
    cases hu : AbstractRepository.updateFirst f u db.docs with
    | none => rw [hu] at h; exact absurd h (by simp)
    | some p =>
      obtain ⟨dd, docs2⟩ := p
      rw [hu] at h
      simp only [Except.ok.injEq, Prod.mk.injEq] at h
      obtain ⟨h1, h2⟩ := h
      subst h1
      subst h2
      obtain ⟨d, hd, hmd, hde, _⟩ :=
        AbstractRepository.updateFirst_spec f u db.docs dd docs2 hu
      refine ⟨⟨d, hd, hmd, hde⟩, ?_⟩
      rw [findOne_mk,
        AbstractRepository.updateFirst_find_self f u db.docs dd docs2
          hwf.2.2 hu]
  · intro hnone
    unfold AbstractRepository.findOneAndUpdate
    rw [AbstractRepository.updateFirst_eq_none f u db.docs hnone]

/-- Witness for C2 at a concrete store: updating the email of the document
with id 0 yields the post-update document, which a following `findOne`
returns again. -/
theorem C2_witness :
    (∃ d ∈ (DB.mk [Doc.mk 0 [("email", Value.str "a@b.c")]] 1 [0]).docs,
        matchesFilter (idFilter 0) d = true ∧
        Doc.mk 0 [("email", Value.str "b@c.d")] =
          AbstractRepository.applySet d [("email", Value.str "b@c.d")]) ∧
    AbstractRepository.findOne
        (idFilter (Doc.mk 0 [("email", Value.str "b@c.d")])._id)
        (DB.mk [Doc.mk 0 [("email", Value.str "b@c.d")]] 1 [0]) =
      .ok (Doc.mk 0 [("email", Value.str "b@c.d")]) :=
  (C2_findOneAndUpdate_post_state (idFilter 0) [("email", Value.str "b@c.d")]
      (DB.mk [Doc.mk 0 [("email", Value.str "a@b.c")]] 1 [0])
      (by unfold WF; refine ⟨?_, ?_, ?_⟩ <;> decide)).1
    (Doc.mk 0 [("email", Value.str "b@c.d")])
    (DB.mk [Doc.mk 0 [("email", Value.str "b@c.d")]] 1 [0])
    (by rfl)

/-- C3: `findOneAndDelete` returns the matched document exactly as it
existed immediately before deletion, after which `findOne` on its id fails
with `NotFound`; it fails with `NotFound` itself when no document matches. -/
theorem C3_findOneAndDelete_pre_state (f : QueryFilter) (db : DB)
    (hwf : WF db) :
    (∀ d2 db2,
      AbstractRepository.findOneAndDelete f db = .ok (d2, db2) →
        d2 ∈ db.docs ∧ matchesFilter f d2 = true ∧
        AbstractRepository.findOne (idFilter d2._id) db2 =
          .error .notFound) ∧
    ((∀ d ∈ db.docs, matchesFilter f d = false) →
      AbstractRepository.findOneAndDelete f db = .error .notFound) := by
  constructor
  · intro d2 db2 h
    unfold AbstractRepository.findOneAndDelete at h
    cases hu : AbstractRepository.deleteFirst f db.docs with
    | none => rw [hu] at h; exact absurd h (by simp)
    | some p =>
      obtain ⟨dd, docs2⟩ := p
      rw [hu] at h
      simp only [Except.ok.injEq, Prod.mk.injEq] at h
      obtain ⟨h1, h2⟩ := h
      subst h1
      subst h2
      obtain ⟨hmem, hmf⟩ :=
        AbstractRepository.deleteFirst_spec f db.docs dd docs2 hu
      refine ⟨hmem, hmf, ?_⟩
      rw [findOne_mk,
        List.find?_eq_none.mpr (fun x hx => by
          simp [AbstractRepository.deleteFirst_id_gone f db.docs dd docs2
            hwf.2.2 hu x hx])]
  · intro hnone
    unfold AbstractRepository.findOneAndDelete
    rw [AbstractRepository.deleteFirst_eq_none f db.docs hnone]

/-- Witness for C3 at a concrete store: deleting the document with id 0
returns it unchanged and a following `findOne` on id 0 fails. -/
theorem C3_witness :
    Doc.mk 0 [("email", Value.str "a@b.c")] ∈
      (DB.mk [Doc.mk 0 [("email", Value.str "a@b.c")]] 1 [0]).docs ∧
    matchesFilter (idFilter 0) (Doc.mk 0 [("email", Value.str "a@b.c")]) =
      true ∧
    AbstractRepository.findOne
        (idFilter (Doc.mk 0 [("email", Value.str "a@b.c")])._id)
        (DB.mk [] 1 [0]) = .error .notFound :=
  (C3_findOneAndDelete_pre_state (idFilter 0)
      (DB.mk [Doc.mk 0 [("email", Value.str "a@b.c")]] 1 [0])
      (by unfold WF; refine ⟨?_, ?_, ?_⟩ <;> decide)).1
    (Doc.mk 0 [("email", Value.str "a@b.c")])
    (DB.mk [] 1 [0])
    (by rfl)

/-- C5: every update through the update path (`findOneAndUpdate`, including
the `UsersService.update` caller) is a partial-field replacement: every
stored field not named in the update document — the id assigned at creation
included — is unchanged in the stored document after the update, and no
field outside the update document is added. -/
theorem C5_partial_field_update (f : QueryFilter) (u : List (String × Value))
    (db : DB) :
    (∀ d2 db2,
      AbstractRepository.findOneAndUpdate f u db = .ok (d2, db2) →
        ∃ d ∈ db.docs, matchesFilter f d = true ∧ d2 ∈ db2.docs ∧
          d2._id = d._id ∧
          ∀ k, k ∉ u.map Prod.fst →
            lookupField d2.fields k = lookupField d.fields k) ∧
    (∀ i input d2 db2,
      UsersService.update i input db = .ok (d2, db2) →
        ∃ d ∈ db.docs, d2._id = d._id ∧
          ∀ k, k ≠ "email" → k ≠ "password" →
            lookupField d2.fields k = lookupField d.fields k) := by
  refine ⟨fun d2 db2 h => findOneAndUpdate_frame f u db d2 db2 h, ?_⟩
  intro i input d2 db2 h
  obtain ⟨d, hd, _, _, hid, hframe⟩ :=
    findOneAndUpdate_frame (idFilter i) (UsersService.userUpdateDoc input)
      db d2 db2 h
  exact ⟨d, hd, hid, fun k hke hkp => hframe k (fun hk =>
    (AbstractRepository.userUpdateDoc_keys input k hk).elim hke hkp)⟩

/-- Witness for C5: a concrete email update leaves the id and the other
fields of the stored document unchanged. -/
theorem C5_witness :
    (∃ d ∈ (DB.mk [Doc.mk 0 [("email", Value.str "a@b.c")]] 1 [0]).docs,
        matchesFilter (idFilter 0) d = true ∧
        Doc.mk 0 [("email", Value.str "b@c.d")] ∈
          (DB.mk [Doc.mk 0 [("email", Value.str "b@c.d")]] 1 [0]).docs ∧
        (Doc.mk 0 [("email", Value.str "b@c.d")])._id = d._id ∧
        ∀ k, k ∉ [("email", Value.str "b@c.d")].map Prod.fst →
          lookupField (Doc.mk 0 [("email", Value.str "b@c.d")]).fields k =
            lookupField d.fields k) ∧
    (∃ d ∈ (DB.mk [Doc.mk 0 [("email", Value.str "a@b.c")]] 1 [0]).docs,
        (Doc.mk 0 [("email", Value.str "b@c.d")])._id = d._id ∧
        ∀ k, k ≠ "email" → k ≠ "password" →
          lookupField (Doc.mk 0 [("email", Value.str "b@c.d")]).fields k =
            lookupField d.fields k) :=
  ⟨(C5_partial_field_update (idFilter 0) [("email", Value.str "b@c.d")]
        (DB.mk [Doc.mk 0 [("email", Value.str "a@b.c")]] 1 [0])).1
      (Doc.mk 0 [("email", Value.str "b@c.d")])
      (DB.mk [Doc.mk 0 [("email", Value.str "b@c.d")]] 1 [0]) (by rfl),
   (C5_partial_field_update (idFilter 0) [("email", Value.str "b@c.d")]
        (DB.mk [Doc.mk 0 [("email", Value.str "a@b.c")]] 1 [0])).2
      0 (UpdateUserInput.mk (some "b@c.d") none)
      (Doc.mk 0 [("email", Value.str "b@c.d")])
      (DB.mk [Doc.mk 0 [("email", Value.str "b@c.d")]] 1 [0]) (by rfl)⟩

/-- C9: `UsersService.create` persists a document whose password field is
the bcrypt hash (cost factor 10) of the supplied plaintext — never the
plaintext itself — while the other input field is passed to
`Repository.create` unchanged. -/
theorem C9_create_hashes_password (hash : String → Nat → String)
    (input : CreateUserInput) (db : DB)
    (hne : hash input.password 10 ≠ input.password) :
    lookupField ((UsersService.create hash input db).1).fields "password" =
      some (Value.str (hash input.password 10)) ∧
    lookupField ((UsersService.create hash input db).1).fields "password" ≠
      some (Value.str input.password) ∧
    lookupField ((UsersService.create hash input db).1).fields "email" =
      some (Value.str input.email) ∧
    (UsersService.create hash input db).1 ∈
      (UsersService.create hash input db).2.docs := by
  have hp : lookupField ((UsersService.create hash input db).1).fields
      "password" = some (Value.str (hash input.password 10)) := by
    simp [UsersService.create, AbstractRepository.create, lookupField]
  refine ⟨hp, ?_, ?_, ?_⟩
  · rw [hp]
    intro hc
    simp only [Option.some.injEq, Value.str.injEq] at hc
    exact hne hc
  · simp [UsersService.create, AbstractRepository.create, lookupField]
  · simp [UsersService.create, AbstractRepository.create]

/-- Witness for C9 with a concrete injective-on-this-input hash function. -/
theorem C9_witness :
    lookupField ((UsersService.create (fun s _ => String.append "h" s)
        (CreateUserInput.mk "a@b.c" "pw") DB.empty).1).fields "password" =
      some (Value.str (String.append "h" "pw")) ∧
    lookupField ((UsersService.create (fun s _ => String.append "h" s)
        (CreateUserInput.mk "a@b.c" "pw") DB.empty).1).fields "password" ≠
      some (Value.str "pw") ∧
    lookupField ((UsersService.create (fun s _ => String.append "h" s)
        (CreateUserInput.mk "a@b.c" "pw") DB.empty).1).fields "email" =
      some (Value.str "a@b.c") ∧
    (UsersService.create (fun s _ => String.append "h" s)
        (CreateUserInput.mk "a@b.c" "pw") DB.empty).1 ∈
      (UsersService.create (fun s _ => String.append "h" s)
        (CreateUserInput.mk "a@b.c" "pw") DB.empty).2.docs :=
  C9_create_hashes_password (fun s _ => String.append "h" s)
    (CreateUserInput.mk "a@b.c" "pw") DB.empty (by decide)
